import Mathlib

set_option maxRecDepth 16384
set_option maxHeartbeats 1600000

/-!
Verification of the Resume-wizard client-side credential vault
(src/unnamed/part_001, exported as `src/lib/crypto`) and the key
lifecycle controller embedded in the Home component
(src/unnamed/part_000, `src/components/home.tsx`).

Bytes are modelled as `Nat` values below 256 (`allBytes`).  The browser
platform primitives the source calls (TextEncoder/TextDecoder, btoa/atob,
and the Web Crypto PBKDF2 / AES-GCM provider) are not part of the
repository source; they are modelled explicitly: the text and base64
codecs are implemented faithfully, and the cryptographic provider is
modelled from the spec as an ideal authenticated-encryption scheme.
-/

namespace ResumeWizard

/-- Byte lists: every entry is an octet. -/
def allBytes (l : List Nat) : Prop := ∀ b ∈ l, b < 256

instance (l : List Nat) : Decidable (allBytes l) := by
  unfold allBytes; infer_instance

/-! ### UTF-8 codec

Modelled from the spec: the source uses the platform `TextEncoder` /
`TextDecoder` (`enc.encode`, `dec.decode` in src/unnamed/part_001); those
are not repository code.  `utf8EncodeChar` / `utf8DecodeNums` implement
standard UTF-8 over unicode scalar values. -/

/-- UTF-8 encoding of a single code point (`n < 0x110000`). -/
def utf8EncodeChar (n : Nat) : List Nat :=
  if n < 128 then [n]
  else if n < 2048 then [192 + n / 64, 128 + n % 64]
  else if n < 65536 then [224 + n / 4096, 128 + n / 64 % 64, 128 + n % 64]
  else [240 + n / 262144, 128 + n / 4096 % 64, 128 + n / 64 % 64, 128 + n % 64]

/-- Model of `TextEncoder.encode`: UTF-8 bytes of a string. -/
def utf8Encode (s : String) : List Nat :=
  s.data.flatMap fun c => utf8EncodeChar c.toNat

/-- Parse one UTF-8 encoded code point from the front of a byte list,
returning the code point and the remaining bytes; rejects malformed
sequences (stray continuation bytes, overlong forms, out-of-range
values). -/
def utf8DecodeOne (l : List Nat) : Option (Nat × List Nat) :=
  if l.length = 0 then none
  else if l.getD 0 0 < 128 then some (l.getD 0 0, l.tail)
  else if l.getD 0 0 < 194 then none
  else if l.getD 0 0 < 224 then
    if 2 ≤ l.length ∧ 128 ≤ l.getD 1 0 ∧ l.getD 1 0 < 192 then
      some ((l.getD 0 0 - 192) * 64 + (l.getD 1 0 - 128), l.tail.tail)
    else none
  else if l.getD 0 0 < 240 then
    if 3 ≤ l.length ∧ (128 ≤ l.getD 1 0 ∧ l.getD 1 0 < 192) ∧
        (128 ≤ l.getD 2 0 ∧ l.getD 2 0 < 192) ∧
        2048 ≤ (l.getD 0 0 - 224) * 4096 + (l.getD 1 0 - 128) * 64 + (l.getD 2 0 - 128) then
      some ((l.getD 0 0 - 224) * 4096 + (l.getD 1 0 - 128) * 64 + (l.getD 2 0 - 128),
        l.tail.tail.tail)
    else none
  else if l.getD 0 0 < 245 then
    if 4 ≤ l.length ∧ (128 ≤ l.getD 1 0 ∧ l.getD 1 0 < 192) ∧
        (128 ≤ l.getD 2 0 ∧ l.getD 2 0 < 192) ∧ (128 ≤ l.getD 3 0 ∧ l.getD 3 0 < 192) ∧
        65536 ≤ (l.getD 0 0 - 240) * 262144 + (l.getD 1 0 - 128) * 4096 +
          (l.getD 2 0 - 128) * 64 + (l.getD 3 0 - 128) ∧
        (l.getD 0 0 - 240) * 262144 + (l.getD 1 0 - 128) * 4096 +
          (l.getD 2 0 - 128) * 64 + (l.getD 3 0 - 128) < 1114112 then
      some ((l.getD 0 0 - 240) * 262144 + (l.getD 1 0 - 128) * 4096 +
        (l.getD 2 0 - 128) * 64 + (l.getD 3 0 - 128), l.tail.tail.tail.tail)
    else none
  else none

/-- Decode loop over a byte list; the fuel bounds the number of code
points (each step consumes at least one byte). -/
def utf8DecodeLoop (fuel : Nat) (l : List Nat) : Option (List Nat) :=
  match fuel with
  | 0 => if l.length = 0 then some [] else none
  | f + 1 =>
    if l.length = 0 then some []
    else
      match utf8DecodeOne l with
      | none => none
      | some (n, r) => (utf8DecodeLoop f r).map fun ns => n :: ns

/-- UTF-8 decoder to code points. -/
def utf8DecodeNums (l : List Nat) : Option (List Nat) := utf8DecodeLoop l.length l

/-- Validity check mirrored from `Nat.isValidChar` as a Bool. -/
def charValid (n : Nat) : Bool := n < 55296 || (57344 ≤ n && n < 1114112)

/-- Model of `TextDecoder.decode` restricted to well-formed UTF-8 input
(the only case the vault exercises: plaintexts are produced by
`TextEncoder`). -/
def utf8Decode (l : List Nat) : Option String :=
  match utf8DecodeNums l with
  | none => none
  | some ns => if ns.all charValid then some ⟨ns.map Char.ofNat⟩ else none

/-- Total wrapper used in `decryptText`; `TextDecoder` never throws. -/
def textDecode (l : List Nat) : String := (utf8Decode l).getD "�"

theorem utf8EncodeChar_bytes (n : Nat) (h : n < 1114112) : allBytes (utf8EncodeChar n) := by
  unfold utf8EncodeChar allBytes
  split
  · intro b hb; simp at hb; omega
  · split
    · intro b hb; simp at hb; rcases hb with h | h <;> omega
    · split
      · intro b hb; simp at hb; rcases hb with h | h | h <;> omega
      · intro b hb; simp at hb; rcases hb with h | h | h | h <;> omega

theorem utf8EncodeChar_length_pos (n : Nat) : 0 < (utf8EncodeChar n).length := by
  unfold utf8EncodeChar
  split_ifs <;> simp

theorem utf8DecodeOne_encodeChar (n : Nat) (h : n < 1114112) (rest : List Nat) :
    utf8DecodeOne (utf8EncodeChar n ++ rest) = some (n, rest) := by
  unfold utf8EncodeChar
  by_cases h1 : n < 128
  · rw [if_pos h1]
    show utf8DecodeOne (n :: rest) = some (n, rest)
    unfold utf8DecodeOne
    simp only [List.length_cons, List.getD_cons_zero, List.getD_cons_succ, List.tail_cons]
    rw [if_neg (by omega), if_pos h1]
  · rw [if_neg h1]
    by_cases h2 : n < 2048
    · rw [if_pos h2]
      show utf8DecodeOne ((192 + n / 64) :: (128 + n % 64) :: rest) = some (n, rest)
      unfold utf8DecodeOne
      simp only [List.length_cons, List.getD_cons_zero, List.getD_cons_succ, List.tail_cons]
      rw [if_neg (by omega), if_neg (by omega), if_neg (by omega), if_pos (by omega),
        if_pos (by omega)]
      have hv : (192 + n / 64 - 192) * 64 + (128 + n % 64 - 128) = n := by omega
      rw [hv]
    · rw [if_neg h2]
      by_cases h3 : n < 65536
      · rw [if_pos h3]
        show utf8DecodeOne
            ((224 + n / 4096) :: (128 + n / 64 % 64) :: (128 + n % 64) :: rest) = some (n, rest)
        unfold utf8DecodeOne
        simp only [List.length_cons, List.getD_cons_zero, List.getD_cons_succ, List.tail_cons]
        rw [if_neg (by omega), if_neg (by omega), if_neg (by omega), if_neg (by omega),
          if_pos (by omega), if_pos (by omega)]
        have hv : (224 + n / 4096 - 224) * 4096 + (128 + n / 64 % 64 - 128) * 64 +
            (128 + n % 64 - 128) = n := by omega
        rw [hv]
      · rw [if_neg h3]
        show utf8DecodeOne
            ((240 + n / 262144) :: (128 + n / 4096 % 64) :: (128 + n / 64 % 64) ::
              (128 + n % 64) :: rest) = some (n, rest)
        unfold utf8DecodeOne
        simp only [List.length_cons, List.getD_cons_zero, List.getD_cons_succ, List.tail_cons]
        rw [if_neg (by omega), if_neg (by omega), if_neg (by omega), if_neg (by omega),
          if_neg (by omega), if_pos (by omega), if_pos (by omega)]
        have hv : (240 + n / 262144 - 240) * 262144 + (128 + n / 4096 % 64 - 128) * 4096 +
            (128 + n / 64 % 64 - 128) * 64 + (128 + n % 64 - 128) = n := by omega
        rw [hv]

theorem char_toNat_lt (c : Char) : c.toNat < 1114112 := by
  have heq : c.toNat = c.val.toNat := rfl
  have h := c.valid
  rcases h with h | h
  · have h1 : c.val.toNat < 55296 := h
    omega
  · have h2 : c.val.toNat < 1114112 := h.2
    omega

theorem utf8DecodeLoop_nil (fuel : Nat) : utf8DecodeLoop fuel [] = some [] := by
  cases fuel <;> simp [utf8DecodeLoop]

theorem utf8DecodeLoop_flatMap (cs : List Char) :
    ∀ fuel : Nat, cs.length ≤ fuel →
      utf8DecodeLoop fuel (cs.flatMap fun c => utf8EncodeChar c.toNat) =
        some (cs.map Char.toNat) := by
  induction cs with
  | nil => intro fuel _; exact utf8DecodeLoop_nil fuel
  | cons c cs ih =>
    intro fuel hf
    match fuel with
    | 0 => simp at hf
    | f + 1 =>
      rw [List.flatMap_cons]
      have hpos :
          0 < (utf8EncodeChar c.toNat ++ cs.flatMap fun x => utf8EncodeChar x.toNat).length := by
        rw [List.length_append]
        have h1 := utf8EncodeChar_length_pos c.toNat
        omega
      show utf8DecodeLoop (f + 1) _ = _
      unfold utf8DecodeLoop
      rw [if_neg (by omega), utf8DecodeOne_encodeChar c.toNat (char_toNat_lt c)]
      have hle : cs.length ≤ f := by
        simp only [List.length_cons] at hf
        omega
      show (utf8DecodeLoop f (cs.flatMap fun x => utf8EncodeChar x.toNat)).map
          (fun ns => c.toNat :: ns) = _
      rw [ih f hle]
      rfl

theorem flatMap_encode_length (cs : List Char) :
    cs.length ≤ (cs.flatMap fun c => utf8EncodeChar c.toNat).length := by
  induction cs with
  | nil => simp
  | cons c cs ih =>
    rw [List.flatMap_cons, List.length_append]
    have := utf8EncodeChar_length_pos c.toNat
    simp only [List.length_cons]
    omega

theorem utf8DecodeNums_flatMap (cs : List Char) :
    utf8DecodeNums (cs.flatMap fun c => utf8EncodeChar c.toNat) =
      some (cs.map Char.toNat) := by
  unfold utf8DecodeNums
  exact utf8DecodeLoop_flatMap cs _ (flatMap_encode_length cs)

theorem utf8Decode_encode (s : String) : utf8Decode (utf8Encode s) = some s := by
  unfold utf8Decode utf8Encode
  rw [utf8DecodeNums_flatMap]
  have hall : (s.data.map Char.toNat).all charValid = true := by
    rw [List.all_eq_true]
    intro n hn
    rw [List.mem_map] at hn
    obtain ⟨c, _, rfl⟩ := hn
    have h := c.valid
    unfold charValid
    rcases h with h | h
    · have : c.val.toNat < 55296 := h
      simp [Char.toNat]; omega
    · have h1 : 57344 ≤ c.val.toNat := h.1
      have h2 : c.val.toNat < 1114112 := h.2
      simp [Char.toNat]; omega
  show (if (s.data.map Char.toNat).all charValid = true then
      some ⟨(s.data.map Char.toNat).map Char.ofNat⟩ else none) = some s
  rw [if_pos hall]
  congr 1
  rw [List.map_map]
  have hmap : s.data.map (Char.ofNat ∘ Char.toNat) = s.data := by
    induction s.data with
    | nil => rfl
    | cons c cs ih => simp [ih, Char.ofNat_toNat]
  rw [hmap]

theorem utf8Encode_injective {s t : String} (h : utf8Encode s = utf8Encode t) : s = t := by
  have hs := utf8Decode_encode s
  have ht := utf8Decode_encode t
  rw [h, ht] at hs
  exact (Option.some_injective _ hs).symm

theorem utf8Encode_bytes (s : String) : allBytes (utf8Encode s) := by
  intro b hb
  unfold utf8Encode at hb
  rw [List.mem_flatMap] at hb
  obtain ⟨c, _, hc⟩ := hb
  exact utf8EncodeChar_bytes c.toNat (char_toNat_lt c) b hc

/-! ### Base64 codec

`toBase64` and `fromBase64` from src/unnamed/part_001: the source wraps the
platform `btoa` / `atob` around a byte/char conversion; here the standard
padded base64 alphabet is implemented directly over byte lists. -/

/-- The base64 alphabet. -/
def b64Chars : List Char :=
  "ABCDEFGHIJKLMNOPQRSTUVWXYZabcdefghijklmnopqrstuvwxyz0123456789+/".data

/-- Character for a sextet value. -/
def b64Char (n : Nat) : Char := b64Chars.getD n 'A'

/-- Sextet value of a character; `none` for characters outside the
alphabet (on such input `atob` throws). -/
def b64Index (c : Char) : Option Nat := b64Chars.indexOf? c

/-- Base64 encoding (3 bytes to 4 chars, padded with `=`). -/
def toBase64Aux : List Nat → List Char
  | [] => []
  | [a] => [b64Char (a / 4), b64Char (a % 4 * 16), '=', '=']
  | [a, b] => [b64Char (a / 4), b64Char (a % 4 * 16 + b / 16), b64Char (b % 16 * 4), '=']
  | a :: b :: c :: rest =>
    b64Char (a / 4) :: b64Char (a % 4 * 16 + b / 16) :: b64Char (b % 16 * 4 + c / 64) ::
      b64Char (c % 64) :: toBase64Aux rest

/-- Model of `toBase64` from the source (`btoa` over the byte string). -/
def toBase64 (l : List Nat) : String := ⟨toBase64Aux l⟩

/-- Base64 decoding of a padded base64 char list. -/
def fromBase64Aux : List Char → Option (List Nat)
  | [] => some []
  | c1 :: c2 :: c3 :: c4 :: rest =>
    (b64Index c1).bind fun a =>
    (b64Index c2).bind fun b =>
    if c3 = '=' then
      if c4 = '=' ∧ rest = [] then some [a * 4 + b / 16] else none
    else
      (b64Index c3).bind fun c =>
      if c4 = '=' then
        if rest = [] then some [a * 4 + b / 16, b % 16 * 16 + c / 4] else none
      else
        (b64Index c4).bind fun d =>
        (fromBase64Aux rest).map fun tl =>
          (a * 4 + b / 16) :: (b % 16 * 16 + c / 4) :: (c % 4 * 64 + d) :: tl
  | _ => none

/-- Model of `fromBase64` from the source (`atob` to a byte array). -/
def fromBase64 (s : String) : Option (List Nat) := fromBase64Aux s.data

theorem b64Index_b64Char : ∀ n, n < 64 → b64Index (b64Char n) = some n := by decide

theorem b64Char_ne_eq : ∀ n, n < 64 → b64Char n ≠ '=' := by decide

theorem fromBase64Aux_toBase64Aux :
    ∀ l : List Nat, allBytes l → fromBase64Aux (toBase64Aux l) = some l
  | [], _ => by simp [toBase64Aux, fromBase64Aux]
  | [a], h => by
    have ha : a < 256 := h a (by simp)
    show fromBase64Aux [b64Char (a / 4), b64Char (a % 4 * 16), '=', '='] = some [a]
    unfold fromBase64Aux
    rw [b64Index_b64Char _ (by omega), b64Index_b64Char _ (by omega)]
    simp only [Option.some_bind]
    simp
    omega
  | [a, b], h => by
    have ha : a < 256 := h a (by simp)
    have hb : b < 256 := h b (by simp)
    show fromBase64Aux
        [b64Char (a / 4), b64Char (a % 4 * 16 + b / 16), b64Char (b % 16 * 4), '='] = some [a, b]
    unfold fromBase64Aux
    rw [b64Index_b64Char _ (by omega), b64Index_b64Char _ (by omega)]
    simp only [Option.some_bind]
    rw [if_neg (b64Char_ne_eq _ (by omega))]
    rw [b64Index_b64Char _ (by omega)]
    simp only [Option.some_bind]
    simp
    omega
  | a :: b :: c :: rest, h => by
    have ha : a < 256 := h a (by simp)
    have hb : b < 256 := h b (by simp)
    have hc : c < 256 := h c (by simp)
    have hrest : allBytes rest := fun x hx => h x (by simp [hx])
    show fromBase64Aux
        (b64Char (a / 4) :: b64Char (a % 4 * 16 + b / 16) :: b64Char (b % 16 * 4 + c / 64) ::
          b64Char (c % 64) :: toBase64Aux rest) = some (a :: b :: c :: rest)
    unfold fromBase64Aux
    rw [b64Index_b64Char _ (by omega), b64Index_b64Char _ (by omega)]
    simp only [Option.some_bind]
    rw [if_neg (b64Char_ne_eq _ (by omega))]
    rw [b64Index_b64Char _ (by omega)]
    simp only [Option.some_bind]
    rw [if_neg (b64Char_ne_eq _ (by omega))]
    rw [b64Index_b64Char _ (by omega)]
    simp only [Option.some_bind]
    rw [fromBase64Aux_toBase64Aux rest hrest]
    simp
    omega

theorem fromBase64_toBase64 (l : List Nat) (h : allBytes l) :
    fromBase64 (toBase64 l) = some l :=
  fromBase64Aux_toBase64Aux l h

theorem toBase64_injective {l1 l2 : List Nat} (h1 : allBytes l1) (h2 : allBytes l2)
    (h : toBase64 l1 = toBase64 l2) : l1 = l2 := by
  have e1 := fromBase64_toBase64 l1 h1
  have e2 := fromBase64_toBase64 l2 h2
  rw [h, e2] at e1
  exact Option.some_injective _ e1.symm

theorem toBase64_ne_empty {l : List Nat} (h : l ≠ []) : toBase64 l ≠ "" := by
  unfold toBase64
  intro hcontra
  have hdata : toBase64Aux l = [] := by
    have := congrArg String.data hcontra
    exact this
  match l, h with
  | [a], _ => simp [toBase64Aux] at hdata
  | [a, b], _ => simp [toBase64Aux] at hdata
  | a :: b :: c :: rest, _ => simp [toBase64Aux] at hdata

/-! ### Ideal authenticated encryption

Modelled from the spec: the source delegates key derivation and
authenticated encryption to the Web Crypto provider
(`crypto.subtle.deriveKey` with PBKDF2-SHA256 at 200000 iterations, and
`crypto.subtle.encrypt`/`decrypt` with AES-GCM); that provider is not
repository code.  It is modelled as an ideal scheme: the derived key is
determined by, and distinguishes, the (passphrase, salt) pair (ideal
KDF, collisions ignored), and AES-GCM is an ideal AEAD whose decryption
succeeds exactly on the ciphertext produced under the same key and iv
(the authentication tag is integral to the ciphertext), returning the
encrypted message.  The spec states the corresponding real-world
guarantees probabilistically (spec sections 4.1 and 8). -/

/-- Duplicate every byte; a single corrupted position always breaks the
pairing, giving the ideal AEAD its tamper-evidence. -/
def dup : List Nat → List Nat
  | [] => []
  | a :: l => a :: a :: dup l

/-- Inverse of `dup`; `none` unless the list is an exact duplication. -/
def undup : List Nat → Option (List Nat)
  | [] => some []
  | a :: b :: rest => if a = b then (undup rest).map fun l => a :: l else none
  | [_] => none

/-- Unary length-prefixed framing of a section (all frame bytes are 0/1,
so frames stay octets). -/
def encodeList (l : List Nat) : List Nat := List.replicate l.length 1 ++ 0 :: l

/-- Count leading ones. -/
def countOnes : List Nat → Nat × List Nat
  | [] => (0, [])
  | a :: rest =>
    if a = 1 then
      ((countOnes rest).1 + 1, (countOnes rest).2)
    else (0, a :: rest)

/-- Parse one length-prefixed section, returning it and the remainder. -/
def decodeList (l : List Nat) : Option (List Nat × List Nat) :=
  if (countOnes l).2.headD 1 = 0 then
    if (countOnes l).1 ≤ (countOnes l).2.tail.length then
      some ((countOnes l).2.tail.take (countOnes l).1, (countOnes l).2.tail.drop (countOnes l).1)
    else none
  else none

/-- Frame the key material, salt and iv ahead of the message. -/
def encodeTriple (pwB salt iv m : List Nat) : List Nat :=
  encodeList pwB ++ (encodeList salt ++ (encodeList iv ++ m))

/-- Parse the three framed sections and the message. -/
def decodeTriple (c : List Nat) : Option (List Nat × List Nat × List Nat × List Nat) :=
  (decodeList c).bind fun p1 =>
  (decodeList p1.2).bind fun p2 =>
  (decodeList p2.2).bind fun p3 =>
  some (p1.1, p2.1, p3.1, p3.2)

/-- Symmetric key of the ideal KDF: determined by (passphrase, salt). -/
structure SymKey where
  password : String
  salt : List Nat
deriving DecidableEq

/-- Model of `deriveKey` from src/unnamed/part_001: PBKDF2-SHA256, 200000
iterations, yielding an AES-GCM key.  The source performs no validation
of the salt (PBKDF2 accepts salts of any length); modelled as the ideal
KDF pairing, it is total. -/
def deriveKey (password : String) (salt : List Nat) : SymKey := ⟨password, salt⟩

/-- Ideal AES-GCM encryption (tag integral to the ciphertext). -/
def gcmEncrypt (key : SymKey) (iv : List Nat) (msg : List Nat) : List Nat :=
  dup (encodeTriple (utf8Encode key.password) key.salt iv msg)

/-- Ideal AES-GCM decryption: succeeds exactly on ciphertexts produced
under the same key and iv. -/
def gcmDecrypt (key : SymKey) (iv : List Nat) (c : List Nat) : Option (List Nat) :=
  (undup c).bind fun e =>
  (decodeTriple e).bind fun t =>
  if t.1 = utf8Encode key.password ∧ t.2.1 = key.salt ∧ t.2.2.1 = iv then some t.2.2.2
  else none

theorem undup_dup (l : List Nat) : undup (dup l) = some l := by
  induction l with
  | nil => rfl
  | cons a l ih => simp [dup, undup, ih]

theorem dup_sound : ∀ c e : List Nat, undup c = some e → c = dup e
  | [], e => by
    intro h
    simp only [undup, Option.some.injEq] at h
    subst h
    rfl
  | [a], e => by
    intro h
    simp [undup] at h
  | a :: b :: rest, e => by
    intro h
    simp only [undup] at h
    by_cases hab : a = b
    · rw [if_pos hab] at h
      match he : undup rest with
      | none => rw [he] at h; simp at h
      | some e0 =>
        rw [he] at h
        simp at h
        have hr := dup_sound rest e0 he
        rw [← h, dup, ← hab, ← hr]
    · rw [if_neg hab] at h
      simp at h

theorem undup_set_dup : ∀ (l : List Nat) (i x : Nat), i < (dup l).length →
    x ≠ (dup l).getD i 0 → undup ((dup l).set i x) = none
  | [], i, x => by
    intro hi
    simp [dup] at hi
  | a :: l, i, x => by
    intro hi hx
    match i with
    | 0 =>
      simp only [dup, List.getD_cons_zero] at hx ⊢
      simp only [List.set_cons_zero]
      simp [undup, hx]
    | 1 =>
      simp only [dup, List.getD_cons_succ, List.getD_cons_zero] at hx ⊢
      simp only [List.set_cons_succ, List.set_cons_zero]
      simp [undup, Ne.symm hx]
    | i + 2 =>
      simp only [dup, List.length_cons, List.getD_cons_succ] at hi hx ⊢
      simp only [List.set_cons_succ]
      simp only [undup, if_pos rfl]
      rw [undup_set_dup l i x (by omega) hx]
      rfl

theorem countOnes_replicate (n : Nat) (t : List Nat) :
    countOnes (List.replicate n 1 ++ 0 :: t) = (n, 0 :: t) := by
  induction n with
  | zero => simp [countOnes]
  | succ n ih => simp [List.replicate_succ, countOnes, ih]

theorem countOnes_spec : ∀ l : List Nat, l = List.replicate (countOnes l).1 1 ++ (countOnes l).2
  | [] => rfl
  | a :: rest => by
    by_cases ha : a = 1
    · subst ha
      have hr := countOnes_spec rest
      have hc : countOnes (1 :: rest) = ((countOnes rest).1 + 1, (countOnes rest).2) := by
        simp [countOnes]
      rw [hc]
      simp only [List.replicate_succ, List.cons_append]
      rw [← hr]
    · have hc : countOnes (a :: rest) = (0, a :: rest) := by simp [countOnes, ha]
      rw [hc]
      simp

theorem decodeList_encode (l t : List Nat) : decodeList (encodeList l ++ t) = some (l, t) := by
  unfold decodeList encodeList
  rw [List.append_assoc, List.cons_append, countOnes_replicate]
  simp only [List.headD_cons, List.tail_cons]
  rw [if_pos trivial, if_pos (by simp)]
  rw [List.take_left, List.drop_left]

theorem decodeList_sound (r l t : List Nat) (h : decodeList r = some (l, t)) :
    r = encodeList l ++ t := by
  unfold decodeList at h
  have hspec := countOnes_spec r
  split_ifs at h with hhead hle
  · simp only [Option.some.injEq, Prod.mk.injEq] at h
    obtain ⟨hl, ht⟩ := h
    have hcons : (countOnes r).2 = 0 :: (countOnes r).2.tail := by
      match hm : (countOnes r).2 with
      | [] => rw [hm] at hhead; simp [List.headD] at hhead
      | a :: r0 =>
        rw [hm] at hhead
        simp only [List.headD_cons] at hhead
        rw [hhead]
        rfl
    rw [hspec, hcons, encodeList, ← hl, ← ht]
    have hlen : ((countOnes r).2.tail.take (countOnes r).1).length = (countOnes r).1 :=
      List.length_take_of_le hle
    rw [hlen, List.append_assoc, List.cons_append, List.take_append_drop]

theorem decodeTriple_encode (pwB salt iv m : List Nat) :
    decodeTriple (encodeTriple pwB salt iv m) = some (pwB, salt, iv, m) := by
  unfold decodeTriple encodeTriple
  rw [decodeList_encode]
  simp only [Option.some_bind]
  rw [decodeList_encode]
  simp only [Option.some_bind]
  rw [decodeList_encode]
  rfl

theorem decodeTriple_sound (c pwB salt iv m : List Nat)
    (h : decodeTriple c = some (pwB, salt, iv, m)) : c = encodeTriple pwB salt iv m := by
  unfold decodeTriple at h
  match h1 : decodeList c with
  | none => rw [h1] at h; simp at h
  | some (s1, r1) =>
    rw [h1] at h
    simp only [Option.some_bind] at h
    match h2 : decodeList r1 with
    | none => rw [h2] at h; simp at h
    | some (s2, r2) =>
      rw [h2] at h
      simp only [Option.some_bind] at h
      match h3 : decodeList r2 with
      | none => rw [h3] at h; simp at h
      | some (s3, r3) =>
        rw [h3] at h
        simp only [Option.some_bind, Option.some.injEq, Prod.mk.injEq] at h
        obtain ⟨ha, hb, hc, hd⟩ := h
        have e1 := decodeList_sound c s1 r1 h1
        have e2 := decodeList_sound r1 s2 r2 h2
        have e3 := decodeList_sound r2 s3 r3 h3
        unfold encodeTriple
        rw [← ha, ← hb, ← hc, ← hd, e1, e2, e3]

theorem gcm_roundtrip (key : SymKey) (iv msg : List Nat) :
    gcmDecrypt key iv (gcmEncrypt key iv msg) = some msg := by
  unfold gcmEncrypt gcmDecrypt
  rw [undup_dup]
  simp only [Option.some_bind]
  rw [decodeTriple_encode]
  simp

theorem gcm_auth (key : SymKey) (iv c msg : List Nat)
    (h : gcmDecrypt key iv c = some msg) : c = gcmEncrypt key iv msg := by
  unfold gcmDecrypt at h
  match h1 : undup c with
  | none => rw [h1] at h; simp at h
  | some e =>
    rw [h1] at h
    simp only [Option.some_bind] at h
    match h2 : decodeTriple e with
    | none => rw [h2] at h; simp at h
    | some (pwB, salt, ivStored, m) =>
      rw [h2] at h
      simp only [Option.some_bind] at h
      by_cases hcond : pwB = utf8Encode key.password ∧ salt = key.salt ∧ ivStored = iv
      · rw [if_pos hcond] at h
        simp only [Option.some.injEq] at h
        obtain ⟨hp, hs, hi⟩ := hcond
        subst hp; subst hs; subst hi; subst h
        rw [gcmEncrypt, ← decodeTriple_sound e _ _ _ _ h2, ← dup_sound c e h1]
      · rw [if_neg hcond] at h
        simp at h

theorem gcm_wrong (key1 key2 : SymKey) (iv1 iv2 msg : List Nat)
    (h : ¬(utf8Encode key1.password = utf8Encode key2.password ∧ key1.salt = key2.salt ∧
      iv1 = iv2)) :
    gcmDecrypt key2 iv2 (gcmEncrypt key1 iv1 msg) = none := by
  unfold gcmEncrypt gcmDecrypt
  rw [undup_dup]
  simp only [Option.some_bind]
  rw [decodeTriple_encode]
  simp only [Option.some_bind]
  rw [if_neg h]

theorem gcm_tamper (key1 key2 : SymKey) (iv1 iv2 msg : List Nat) (i x : Nat)
    (hi : i < (gcmEncrypt key1 iv1 msg).length)
    (hx : x ≠ (gcmEncrypt key1 iv1 msg).getD i 0) :
    gcmDecrypt key2 iv2 ((gcmEncrypt key1 iv1 msg).set i x) = none := by
  unfold gcmEncrypt at hi hx ⊢
  unfold gcmDecrypt
  rw [undup_set_dup _ i x hi hx]
  rfl

theorem gcmEncrypt_bytes (key : SymKey) (iv msg : List Nat)
    (hs : allBytes key.salt) (hiv : allBytes iv) (hm : allBytes msg) :
    allBytes (gcmEncrypt key iv msg) := by
  have hdup : ∀ l : List Nat, allBytes l → allBytes (dup l) := by
    intro l hl b hb
    induction l with
    | nil => simp [dup] at hb
    | cons a l ih =>
      simp only [dup, List.mem_cons] at hb
      rcases hb with rfl | rfl | hb
      · exact hl b (by simp)
      · exact hl b (by simp)
      · exact ih (fun y hy => hl y (by simp [hy])) hb
  have henc : ∀ l : List Nat, allBytes l → allBytes (encodeList l) := by
    intro l hl b hb
    unfold encodeList at hb
    rw [List.mem_append] at hb
    rcases hb with hb | hb
    · have := List.eq_of_mem_replicate hb
      omega
    · rcases List.mem_cons.mp hb with rfl | hb
      · omega
      · exact hl b hb
  apply hdup
  unfold encodeTriple
  intro b hb
  rcases List.mem_append.mp hb with hb | hb
  · exact henc _ (utf8Encode_bytes key.password) b hb
  · rcases List.mem_append.mp hb with hb | hb
    · exact henc _ hs b hb
    · rcases List.mem_append.mp hb with hb | hb
      · exact henc _ hiv b hb
      · exact hm b hb

theorem dup_eq_nil (l : List Nat) : dup l = [] ↔ l = [] := by
  cases l <;> simp [dup]

theorem gcmEncrypt_ne_nil (key : SymKey) (iv msg : List Nat) : gcmEncrypt key iv msg ≠ [] := by
  unfold gcmEncrypt
  rw [Ne, dup_eq_nil]
  unfold encodeTriple encodeList
  intro h
  have hlen := congrArg List.length h
  simp only [List.length_append, List.length_cons, List.length_nil] at hlen
  omega

/-! ### The vault API (src/unnamed/part_001, `encryptText` / `decryptText`)

The persisted payload is the JSON object `{v, salt, iv, data}`; it is
modelled as a record of optional fields (`JSON.stringify` /
`JSON.parse` round-trip such flat records, so serialization is elided;
a missing field is `none`).  Error kinds follow the taxonomy of the
spec (section 7): the `Invalid encrypted payload` error thrown by the
source and a base64 decode failure of `atob` are both pre-cryptographic
payload-validation failures (`invalidPayload`); an `OperationError`
from `crypto.subtle.decrypt` is `authenticationFailed`. -/

/-- The parsed persisted payload `{v, salt, iv, data}`. -/
structure Payload where
  v : Option Int
  salt : Option String
  iv : Option String
  data : Option String
deriving DecidableEq

/-- Vault failure kinds. -/
inductive CryptoError
  | invalidPayload
  | authenticationFailed
deriving DecidableEq

/-- JavaScript truthiness of an optional string field: absent fields
and the empty string are falsy. -/
def truthy : Option String → Bool
  | none => false
  | some s => !s.isEmpty

/-- Model of `encryptText` from src/unnamed/part_001.  The source draws `salt`
(16 bytes) and `iv` (12 bytes) from `crypto.getRandomValues`; the
randomness is passed explicitly as the two byte lists. -/
def encryptText (salt iv : List Nat) (plain password : String) : Payload :=
  { v := some 1
    salt := some (toBase64 salt)
    iv := some (toBase64 iv)
    data := some (toBase64 (gcmEncrypt (deriveKey password salt) iv (utf8Encode plain))) }

/-- Model of `decryptText` from src/unnamed/part_001: field-presence check, base64
decode of `salt`, `iv` and `data`, key derivation and AES-GCM
decryption.  The three `atob` decodes are sequenced in the option
monad; failure of any of them is an `invalidPayload` failure. -/
def decryptText (p : Payload) (password : String) : Except CryptoError String :=
  if truthy p.salt && truthy p.iv && truthy p.data then
    ((fromBase64 (p.salt.getD "")).bind fun salt =>
      (fromBase64 (p.iv.getD "")).bind fun iv =>
      (fromBase64 (p.data.getD "")).map fun data => (salt, iv, data)).elim
      (Except.error CryptoError.invalidPayload) fun t =>
        (gcmDecrypt (deriveKey password t.1) t.2.1 t.2.2).elim
          (Except.error CryptoError.authenticationFailed) fun plainBuf =>
            Except.ok (textDecode plainBuf)
  else .error .invalidPayload

/-- Flip bit `b` of the byte at position `i`. -/
def byteFlip (l : List Nat) (i b : Nat) : List Nat :=
  l.set i (l.getD i 0 ^^^ 2 ^ b)

theorem getD_set_self : ∀ (l : List Nat) (i a d : Nat), i < l.length →
    (l.set i a).getD i d = a
  | [], i, a, d => by intro hi; simp at hi
  | x :: l, 0, a, d => by intro hi; simp
  | x :: l, i + 1, a, d => by
    intro hi
    simp only [List.set_cons_succ, List.getD_cons_succ]
    exact getD_set_self l i a d (by simp at hi; omega)

theorem xor_pow_ne (x b : Nat) : x ^^^ 2 ^ b ≠ x := by
  intro h
  have h2 : (x ^^^ 2 ^ b) ^^^ x = x ^^^ x := congrArg (fun z => z ^^^ x) h
  rw [Nat.xor_comm x (2 ^ b), Nat.xor_assoc, Nat.xor_self, Nat.xor_zero] at h2
  have hp : 0 < (2 : Nat) ^ b := Nat.pos_pow_of_pos b (by omega)
  omega

theorem getD_mem_of_lt : ∀ (l : List Nat) (i d : Nat), i < l.length → l.getD i d ∈ l
  | [], i, d => by intro h; simp at h
  | x :: l, 0, d => by intro _; simp
  | x :: l, i + 1, d => by
    intro h
    simp only [List.getD_cons_succ]
    exact List.mem_cons_of_mem x (getD_mem_of_lt l i d (by simp at h; omega))

theorem byteFlip_ne (l : List Nat) (i b : Nat) (hi : i < l.length) : byteFlip l i b ≠ l := by
  intro h
  have hget := congrArg (fun t : List Nat => t.getD i 0) h
  simp only [byteFlip] at hget
  rw [getD_set_self l i _ 0 hi] at hget
  exact xor_pow_ne _ b hget

theorem byteFlip_bytes (l : List Nat) (i b : Nat) (hl : allBytes l) (hb : b < 8) :
    allBytes (byteFlip l i b) := by
  intro x hx
  unfold byteFlip at hx
  rcases List.mem_or_eq_of_mem_set hx with hx | rfl
  · exact hl x hx
  · have h1 : l.getD i 0 < 256 := by
      by_cases hi : i < l.length
      · exact hl _ (getD_mem_of_lt l i 0 hi)
      · rw [List.getD_eq_default _ _ (by omega)]
        omega
    have h2 : (2 : Nat) ^ b < 256 := by
      calc (2 : Nat) ^ b ≤ 2 ^ 7 := Nat.pow_le_pow_right (by omega) (by omega)
      _ < 256 := by omega
    calc l.getD i 0 ^^^ 2 ^ b < 2 ^ 8 := Nat.xor_lt_two_pow (by omega) (by omega)
    _ = 256 := by omega

theorem byteFlip_length (l : List Nat) (i b : Nat) : (byteFlip l i b).length = l.length := by
  unfold byteFlip
  exact List.length_set l i _

theorem getD_flip_ne (l : List Nat) (i b : Nat) (hi : i < l.length) :
    (byteFlip l i b).getD i 0 ≠ l.getD i 0 := by
  unfold byteFlip
  rw [getD_set_self l i _ 0 hi]
  exact xor_pow_ne _ b

/-- Shared helper: decryption of a well-formed payload assembled from a
genuine ciphertext succeeds with the original plaintext, for a salt and
iv of any non-zero length. -/
theorem isEmpty_false_of_ne (s : String) (h : s ≠ "") : s.isEmpty = false := by
  rw [Bool.eq_false_iff]
  intro hcontra
  exact h ((String.isEmpty_iff s).mp hcontra)

theorem truthy_toBase64 {l : List Nat} (h : l ≠ []) : truthy (some (toBase64 l)) = true := by
  show (!(toBase64 l).isEmpty) = true
  rw [isEmpty_false_of_ne _ (toBase64_ne_empty h)]
  rfl

theorem decrypt_mk_ok (salt iv : List Nat) (P pw : String)
    (hsb : allBytes salt) (hsne : salt ≠ []) (hib : allBytes iv) (hine : iv ≠ []) :
    decryptText
      { v := some 1, salt := some (toBase64 salt), iv := some (toBase64 iv),
        data := some (toBase64 (gcmEncrypt (deriveKey pw salt) iv (utf8Encode P))) } pw =
      .ok P := by
  unfold decryptText
  have hcb : allBytes (gcmEncrypt (deriveKey pw salt) iv (utf8Encode P)) :=
    gcmEncrypt_bytes _ _ _ hsb hib (utf8Encode_bytes P)
  dsimp only [Option.getD_some]
  rw [truthy_toBase64 hsne, truthy_toBase64 hine,
    truthy_toBase64 (gcmEncrypt_ne_nil (deriveKey pw salt) iv (utf8Encode P))]
  simp only [Bool.and_self]
  rw [if_pos trivial]
  rw [fromBase64_toBase64 salt hsb, fromBase64_toBase64 iv hib, fromBase64_toBase64 _ hcb]
  simp only [Option.some_bind, Option.map_some', Option.elim_some]
  rw [gcm_roundtrip]
  simp only [Option.elim_some]
  unfold textDecode
  rw [utf8Decode_encode]
  rfl


/-- Shared helper: with all three fields present and decodable, the
version field is ignored and decryption reduces to AES-GCM decryption
under the derived key. -/
theorem decryptText_mk_reduce (salt iv data : List Nat) (pw : String) (v : Option Int)
    (hsb : allBytes salt) (hsne : salt ≠ []) (hib : allBytes iv) (hine : iv ≠ [])
    (hdb : allBytes data) (hdne : data ≠ []) :
    decryptText
      { v := v, salt := some (toBase64 salt), iv := some (toBase64 iv),
        data := some (toBase64 data) } pw =
      (gcmDecrypt (deriveKey pw salt) iv data).elim
        (Except.error CryptoError.authenticationFailed) fun plainBuf =>
          Except.ok (textDecode plainBuf) := by
  unfold decryptText
  dsimp only [Option.getD_some]
  rw [truthy_toBase64 hsne, truthy_toBase64 hine, truthy_toBase64 hdne]
  simp only [Bool.and_self]
  rw [if_pos trivial]
  rw [fromBase64_toBase64 salt hsb, fromBase64_toBase64 iv hib, fromBase64_toBase64 data hdb]
  simp only [Option.some_bind, Option.map_some', Option.elim_some]

/-- Shared helper: decrypting a genuine payload under a different
passphrase is an authentication failure. -/
theorem decrypt_mk_wrongpw (salt iv : List Nat) (P pw pw2 : String)
    (hsb : allBytes salt) (hsne : salt ≠ []) (hib : allBytes iv) (hine : iv ≠ [])
    (hpw : pw2 ≠ pw) :
    decryptText
      { v := some 1, salt := some (toBase64 salt), iv := some (toBase64 iv),
        data := some (toBase64 (gcmEncrypt (deriveKey pw salt) iv (utf8Encode P))) } pw2 =
      .error .authenticationFailed := by
  have hcb : allBytes (gcmEncrypt (deriveKey pw salt) iv (utf8Encode P)) :=
    gcmEncrypt_bytes _ _ _ hsb hib (utf8Encode_bytes P)
  have hcne : gcmEncrypt (deriveKey pw salt) iv (utf8Encode P) ≠ [] :=
    gcmEncrypt_ne_nil _ _ _
  rw [decryptText_mk_reduce salt iv _ pw2 (some 1) hsb hsne hib hine hcb hcne]
  rw [gcm_wrong (deriveKey pw salt) (deriveKey pw2 salt) iv iv (utf8Encode P) (by
    intro hcond
    have hpp : pw = pw2 := utf8Encode_injective hcond.1
    exact hpw hpp.symm)]
  rfl


/-! ### Key lifecycle controller (src/unnamed/part_000, `home.tsx`)

The React state relevant to the lifecycle claims and the three
localStorage keys are modelled as records; localStorage values are the
parsed records (`JSON.stringify`/`JSON.parse` round-trip them, and the
encrypted key is stored as the serialized `Payload`).  Each UI handler
becomes a function from (storage, state) to (storage, state) plus the
alert message it raises, if any; `localStorage` errors are ignored by
the source (`try`/`catch` around every access) and the storage model is
total, so the catch paths are unreachable.  The `File` constructor
branch of the load effect is modelled on its success path (the catch
sets only `originalContent`). -/

/-- The stored resume record `{name, content, savedAt}`. -/
structure SavedResume where
  name : String
  content : String
  savedAt : Nat
deriving DecidableEq

/-- The three persistent storage keys used by the component:
`resume_wizard_persistence`, `resume_wizard_last_resume`,
`resume_wizard_api_key_enc`. -/
structure LocalStorage where
  persistence : Option String
  lastResume : Option SavedResume
  apiKeyEnc : Option Payload
deriving DecidableEq

/-- The `useState` hooks of `Home` that the lifecycle claims concern. -/
structure HomeState where
  resumeFile : Option (String × String)
  lastSavedResume : Option SavedResume
  persistEnabled : Bool
  apiKey : String
  encryptedApiKey : Option Payload
  passphrase : String
  isApiUnlocked : Bool
  originalContent : String
deriving DecidableEq

/-- The `useState` initial values: no file, persistence on, empty key
and passphrase, locked. -/
def initialHomeState : HomeState :=
  { resumeFile := none, lastSavedResume := none, persistEnabled := true,
    apiKey := "", encryptedApiKey := none, passphrase := "", isApiUnlocked := false,
    originalContent := "" }

/-- The check `rawPersist === null ? true : rawPersist === '1'` from the load
effect. -/
def shouldPersist (ls : LocalStorage) : Bool :=
  match ls.persistence with
  | none => true
  | some r => r = "1"

/-- The mount `useEffect` of `Home` (load persisted preference, resume
and encrypted key). -/
def loadEffect (ls : LocalStorage) (s : HomeState) : HomeState :=
  let s1 := { s with persistEnabled := shouldPersist ls }
  if shouldPersist ls = false then s1
  else
    let s2 :=
      match ls.lastResume with
      | none => s1
      | some parsed =>
        let s' := { s1 with lastSavedResume := some parsed }
        if s1.resumeFile = none ∧ ¬parsed.content.isEmpty then
          { s' with
            resumeFile := some (parsed.name, parsed.content)
            originalContent := parsed.content }
        else s'
    match ls.apiKeyEnc with
    | none => s2
    | some stored =>
      { s2 with encryptedApiKey := some stored, apiKey := "", isApiUnlocked := false }

/-- Model of `clearLastSavedResume` from `Home`: removes both persisted
artifacts and clears the resume-related state. -/
def clearLastSavedResume (ls : LocalStorage) (s : HomeState) : LocalStorage × HomeState :=
  ({ ls with lastResume := none, apiKeyEnc := none },
   { s with lastSavedResume := none, resumeFile := none, originalContent := "" })

/-- Model of `handleFileUpload` from `Home` (reader onload collapsed): sets the
current file and content, and persists the resume only when the
persistence flag is on. -/
def handleFileUpload (name content : String) (now : Nat) (ls : LocalStorage) (s : HomeState) :
    LocalStorage × HomeState :=
  let s1 := { s with resumeFile := some (name, content), originalContent := content }
  if s.persistEnabled then
    let item : SavedResume := { name := name, content := content, savedAt := now }
    ({ ls with lastResume := some item }, { s1 with lastSavedResume := some item })
  else (ls, s1)

/-- The persistence-toggle `onChange` handler: stores the flag, and on
disable deletes both persisted artifacts. -/
def persistToggle (v : Bool) (ls : LocalStorage) (s : HomeState) : LocalStorage × HomeState :=
  let s1 := { s with persistEnabled := v }
  if v then ({ ls with persistence := some "1" }, s1)
  else
    ({ ls with persistence := some "0", lastResume := none, apiKeyEnc := none },
     { s1 with lastSavedResume := none })

/-- The `Encrypt and Save Key` button handler (randomness for
`encryptText` passed explicitly): writes the encrypted payload to
storage unconditionally, holds it in memory and marks the key
unlocked. -/
def encryptSaveKey (salt iv : List Nat) (ls : LocalStorage) (s : HomeState) :
    LocalStorage × HomeState × Option String :=
  if s.apiKey.isEmpty then (ls, s, some "Enter your API key first")
  else if s.passphrase.isEmpty then (ls, s, some "Enter a passphrase to encrypt the key")
  else
    let e := encryptText salt iv s.apiKey s.passphrase
    ({ ls with apiKeyEnc := some e },
     { s with encryptedApiKey := some e, isApiUnlocked := true },
     some "API key encrypted and saved locally")

/-- The effect of the `try`/`catch` around `decryptText` in the unlock
handler: on success set the plaintext key and mark unlocked, on failure
alert and leave the state alone. -/
def unlockResult (r : Except CryptoError String) (ls : LocalStorage) (s : HomeState) :
    LocalStorage × HomeState × Option String :=
  match r with
  | .ok plain => (ls, { s with apiKey := plain, isApiUnlocked := true }, none)
  | .error _ => (ls, s, some "Failed to decrypt key")

/-- The `Unlock Saved Key` button handler.  The button is rendered only
when an encrypted payload is held and the key is locked; the
`encryptedApiKey = none` branch is unreachable in the UI and leaves the
state unchanged. -/
def unlockSavedKey (ls : LocalStorage) (s : HomeState) :
    LocalStorage × HomeState × Option String :=
  if s.passphrase.isEmpty then (ls, s, some "Enter your passphrase to unlock")
  else
    s.encryptedApiKey.elim (ls, s, none) fun p =>
      unlockResult (decryptText p s.passphrase) ls s


/-! ### Concrete inputs for witnesses -/

/-- A concrete 16-byte draw of `crypto.getRandomValues(new Uint8Array(16))`. -/
def demoSalt : List Nat := [7, 1, 2, 3, 4, 5, 6, 7, 8, 9, 10, 11, 12, 13, 14, 15]

/-- A second, different 16-byte draw. -/
def demoSalt2 : List Nat := [99, 1, 2, 3, 4, 5, 6, 7, 8, 9, 10, 11, 12, 13, 14, 15]

/-- A concrete 12-byte draw of `crypto.getRandomValues(new Uint8Array(12))`. -/
def demoIv : List Nat := [0, 1, 2, 3, 4, 5, 6, 7, 8, 9, 10, 11]

/-- A second, different 12-byte draw. -/
def demoIv2 : List Nat := [200, 1, 2, 3, 4, 5, 6, 7, 8, 9, 10, 11]

/-- An 8-byte salt (not 16 bytes). -/
def salt8 : List Nat := [1, 2, 3, 4, 5, 6, 7, 8]

/-! ### Claims -/

/-- C1: for every plaintext `P` (including the empty string and strings
with multi-byte characters) and every passphrase `p`, decrypting the
payload produced by `encryptText P p` with the same passphrase returns
exactly `P`.  The salt and iv are the 16- and 12-byte draws of the
secure random source. -/
theorem decryptText_encryptText_roundtrip (salt iv : List Nat) (P pw : String)
    (hsb : allBytes salt) (hs16 : salt.length = 16)
    (hib : allBytes iv) (hi12 : iv.length = 12) :
    decryptText (encryptText salt iv P pw) pw = .ok P := by
  have hsne : salt ≠ [] := by intro h; rw [h] at hs16; simp at hs16
  have hine : iv ≠ [] := by intro h; rw [h] at hi12; simp at hi12
  unfold encryptText
  exact decrypt_mk_ok salt iv P pw hsb hsne hib hine

/-- Witness for C1 at a concrete multi-byte plaintext and passphrase. -/
theorem decryptText_encryptText_roundtrip_witness :
    (allBytes demoSalt ∧ demoSalt.length = 16 ∧ allBytes demoIv ∧ demoIv.length = 12) ∧
    decryptText (encryptText demoSalt demoIv "clé😀" "correct horse")
      "correct horse" = .ok "clé😀" :=
  ⟨⟨by decide, by decide, by decide, by decide⟩,
    decryptText_encryptText_roundtrip demoSalt demoIv _ _
      (by decide) (by decide) (by decide) (by decide)⟩

/-- C9: `decryptText` never inspects the version tag: replacing the `v`
field of any payload by `1`, any other value, or removing it entirely
leaves the result of decryption unchanged (in particular no
`invalidPayload` error arises from an unrecognized or missing schema
version). -/
theorem decryptText_ignores_version (p : Payload) (w : Option Int) (pw : String) :
    decryptText { p with v := w } pw = decryptText p pw := rfl

/-- C10: the clear action removes both persisted artifacts
(`resume_wizard_last_resume` and `resume_wizard_api_key_enc`) from
storage, clears the resume-related state, and leaves the in-memory
`encryptedApiKey`, `apiKey` and `isApiUnlocked` of the key lifecycle
controller unchanged. -/
theorem clearLastSavedResume_frame (ls : LocalStorage) (s : HomeState) :
    (clearLastSavedResume ls s).1.lastResume = none ∧
    (clearLastSavedResume ls s).1.apiKeyEnc = none ∧
    (clearLastSavedResume ls s).1.persistence = ls.persistence ∧
    (clearLastSavedResume ls s).2.encryptedApiKey = s.encryptedApiKey ∧
    (clearLastSavedResume ls s).2.apiKey = s.apiKey ∧
    (clearLastSavedResume ls s).2.isApiUnlocked = s.isApiUnlocked ∧
    (clearLastSavedResume ls s).2.lastSavedResume = none ∧
    (clearLastSavedResume ls s).2.resumeFile = none :=
  ⟨rfl, rfl, rfl, rfl, rfl, rfl, rfl, rfl⟩


/-- C8: the payload returned by `encryptText` has shape
`{v, salt, iv, data}` with `v = 1`, a `salt` field that decodes from
base64 to exactly 16 bytes, an `iv` field that decodes to exactly
12 bytes, and `data` the base64 of the AES-GCM ciphertext with its
authentication tag included (the tag is integral to `gcmEncrypt`). -/
theorem encryptText_shape (salt iv : List Nat) (P pw : String)
    (hsb : allBytes salt) (hs16 : salt.length = 16)
    (hib : allBytes iv) (hi12 : iv.length = 12) :
    (encryptText salt iv P pw).v = some 1 ∧
    (∃ sb, fromBase64 ((encryptText salt iv P pw).salt.getD "") = some sb ∧ sb.length = 16) ∧
    (∃ ib, fromBase64 ((encryptText salt iv P pw).iv.getD "") = some ib ∧ ib.length = 12) ∧
    (encryptText salt iv P pw).data =
      some (toBase64 (gcmEncrypt (deriveKey pw salt) iv (utf8Encode P))) := by
  refine ⟨rfl, ⟨salt, ?_, hs16⟩, ⟨iv, ?_, hi12⟩, rfl⟩
  · show fromBase64 (toBase64 salt) = some salt
    exact fromBase64_toBase64 salt hsb
  · show fromBase64 (toBase64 iv) = some iv
    exact fromBase64_toBase64 iv hib

/-- Witness for C8 at a concrete input. -/
theorem encryptText_shape_witness :
    (allBytes demoSalt ∧ demoSalt.length = 16 ∧ allBytes demoIv ∧ demoIv.length = 12) ∧
    (encryptText demoSalt demoIv "AIza-example-key-123" "correct horse").v = some 1 ∧
    (∃ sb, fromBase64 ((encryptText demoSalt demoIv "AIza-example-key-123"
      "correct horse").salt.getD "") = some sb ∧ sb.length = 16) ∧
    (∃ ib, fromBase64 ((encryptText demoSalt demoIv "AIza-example-key-123"
      "correct horse").iv.getD "") = some ib ∧ ib.length = 12) ∧
    (encryptText demoSalt demoIv "AIza-example-key-123" "correct horse").data =
      some (toBase64 (gcmEncrypt (deriveKey "correct horse" demoSalt) demoIv
        (utf8Encode "AIza-example-key-123"))) :=
  ⟨⟨by decide, by decide, by decide, by decide⟩,
    encryptText_shape demoSalt demoIv "AIza-example-key-123" "correct horse"
      (by decide) (by decide) (by decide) (by decide)⟩

/-- C6 (counterexample to the claim as stated): key derivation and a
full decryption round-trip succeed with an 8-byte salt — `deriveKey`
does not fail with `InvalidSaltLength` on a salt that is not 16 bytes,
because the source never validates the salt length and PBKDF2 accepts
salts of any length. -/
theorem deriveKey_salt8_counterexample :
    salt8.length = 8 ∧
    decryptText
      { v := some 1, salt := some (toBase64 salt8), iv := some (toBase64 demoIv),
        data := some (toBase64 (gcmEncrypt (deriveKey "pw" salt8) demoIv
          (utf8Encode "secret"))) } "pw" = .ok "secret" :=
  ⟨by decide,
    decrypt_mk_ok salt8 demoIv "secret" "pw" (by decide) (by decide) (by decide) (by decide)⟩

/-- C6 (amended): `deriveKey` performs no validation and has no error
path: derivation (and a full decryption round-trip through it) succeeds
for every passphrase and every salt, of any length; in particular it
succeeds for every non-empty passphrase with a 16-byte salt. -/
theorem deriveKey_no_salt_validation (salt iv : List Nat) (P pw : String)
    (hsb : allBytes salt) (hsne : salt ≠ []) (hib : allBytes iv) (hine : iv ≠ []) :
    decryptText
      { v := some 1, salt := some (toBase64 salt), iv := some (toBase64 iv),
        data := some (toBase64 (gcmEncrypt (deriveKey pw salt) iv (utf8Encode P))) } pw =
      .ok P :=
  decrypt_mk_ok salt iv P pw hsb hsne hib hine

/-- Witness for the amended C6 at an 8-byte salt. -/
theorem deriveKey_no_salt_validation_witness :
    (allBytes salt8 ∧ salt8 ≠ [] ∧ allBytes demoIv ∧ demoIv ≠ []) ∧
    decryptText
      { v := some 1, salt := some (toBase64 salt8), iv := some (toBase64 demoIv),
        data := some (toBase64 (gcmEncrypt (deriveKey "a passphrase" salt8) demoIv
          (utf8Encode "AIza-example-key-123"))) } "a passphrase" = .ok "AIza-example-key-123" :=
  ⟨⟨by decide, by decide, by decide, by decide⟩,
    deriveKey_no_salt_validation salt8 demoIv "AIza-example-key-123" "a passphrase"
      (by decide) (by decide) (by decide) (by decide)⟩

/-- C5: two calls to `encryptText` with the same plaintext and
passphrase whose fresh random draws differ (the probabilistic guarantee
of the secure random source) produce payloads whose `salt` fields
differ, whose `iv` fields differ and whose ciphertexts differ, yet both
decrypt to the same plaintext under the same passphrase. -/
theorem encryptText_fresh (s1 s2 i1 i2 : List Nat) (P pw : String)
    (hb1 : allBytes s1) (hl1 : s1.length = 16) (hb2 : allBytes s2) (hl2 : s2.length = 16)
    (hc1 : allBytes i1) (hk1 : i1.length = 12) (hc2 : allBytes i2) (hk2 : i2.length = 12)
    (hss : s1 ≠ s2) (hii : i1 ≠ i2) :
    (encryptText s1 i1 P pw).salt ≠ (encryptText s2 i2 P pw).salt ∧
    (encryptText s1 i1 P pw).iv ≠ (encryptText s2 i2 P pw).iv ∧
    (encryptText s1 i1 P pw).data ≠ (encryptText s2 i2 P pw).data ∧
    decryptText (encryptText s1 i1 P pw) pw = .ok P ∧
    decryptText (encryptText s2 i2 P pw) pw = .ok P := by
  have hne1 : s1 ≠ [] := by intro h; rw [h] at hl1; simp at hl1
  have hne2 : s2 ≠ [] := by intro h; rw [h] at hl2; simp at hl2
  have hme1 : i1 ≠ [] := by intro h; rw [h] at hk1; simp at hk1
  have hme2 : i2 ≠ [] := by intro h; rw [h] at hk2; simp at hk2
  refine ⟨?_, ?_, ?_, ?_, ?_⟩
  · intro h
    simp only [encryptText, Option.some.injEq] at h
    exact hss (toBase64_injective hb1 hb2 h)
  · intro h
    simp only [encryptText, Option.some.injEq] at h
    exact hii (toBase64_injective hc1 hc2 h)
  · intro h
    simp only [encryptText, Option.some.injEq] at h
    have hcc := toBase64_injective
      (gcmEncrypt_bytes _ _ _ hb1 hc1 (utf8Encode_bytes P))
      (gcmEncrypt_bytes _ _ _ hb2 hc2 (utf8Encode_bytes P)) h
    have h1 := gcm_roundtrip (deriveKey pw s1) i1 (utf8Encode P)
    rw [hcc] at h1
    have h2 := gcm_wrong (deriveKey pw s2) (deriveKey pw s1) i2 i1 (utf8Encode P) (by
      intro hcond
      have hsalts : s2 = s1 := hcond.2.1
      exact hss hsalts.symm)
    rw [h2] at h1
    simp at h1
  · unfold encryptText
    exact decrypt_mk_ok s1 i1 P pw hb1 hne1 hc1 hme1
  · unfold encryptText
    exact decrypt_mk_ok s2 i2 P pw hb2 hne2 hc2 hme2

/-- Witness for C5 at two concrete differing draws. -/
theorem encryptText_fresh_witness :
    (allBytes demoSalt ∧ demoSalt.length = 16 ∧ allBytes demoSalt2 ∧ demoSalt2.length = 16 ∧
      allBytes demoIv ∧ demoIv.length = 12 ∧ allBytes demoIv2 ∧ demoIv2.length = 12 ∧
      demoSalt ≠ demoSalt2 ∧ demoIv ≠ demoIv2) ∧
    (encryptText demoSalt demoIv "x" "pw").salt ≠ (encryptText demoSalt2 demoIv2 "x" "pw").salt ∧
    (encryptText demoSalt demoIv "x" "pw").iv ≠ (encryptText demoSalt2 demoIv2 "x" "pw").iv ∧
    (encryptText demoSalt demoIv "x" "pw").data ≠ (encryptText demoSalt2 demoIv2 "x" "pw").data ∧
    decryptText (encryptText demoSalt demoIv "x" "pw") "pw" = .ok "x" ∧
    decryptText (encryptText demoSalt2 demoIv2 "x" "pw") "pw" = .ok "x" :=
  ⟨⟨by decide, by decide, by decide, by decide, by decide, by decide, by decide, by decide,
     by decide, by decide⟩,
    encryptText_fresh demoSalt demoSalt2 demoIv demoIv2 "x" "pw"
      (by decide) (by decide) (by decide) (by decide) (by decide) (by decide) (by decide)
      (by decide) (by decide) (by decide)⟩


/-- C2: decrypting a payload produced by `encryptText P pw` fails with
`AuthenticationFailed` under any passphrase other than `pw`, and
likewise (with the correct passphrase) after any single-bit flip of a
byte of the stored ciphertext, salt or iv; decryption never silently
returns a corrupted plaintext. -/
theorem decryptText_auth_and_tamper (salt iv : List Nat) (P pw : String)
    (hsb : allBytes salt) (hs16 : salt.length = 16)
    (hib : allBytes iv) (hi12 : iv.length = 12) :
    (∀ pw2, pw2 ≠ pw →
      decryptText (encryptText salt iv P pw) pw2 = .error .authenticationFailed) ∧
    (∀ i b, i < (gcmEncrypt (deriveKey pw salt) iv (utf8Encode P)).length → b < 8 →
      decryptText
        { encryptText salt iv P pw with
          data := some (toBase64
            (byteFlip (gcmEncrypt (deriveKey pw salt) iv (utf8Encode P)) i b)) } pw =
        .error .authenticationFailed) ∧
    (∀ i b, i < salt.length → b < 8 →
      decryptText
        { encryptText salt iv P pw with salt := some (toBase64 (byteFlip salt i b)) } pw =
        .error .authenticationFailed) ∧
    (∀ i b, i < iv.length → b < 8 →
      decryptText
        { encryptText salt iv P pw with iv := some (toBase64 (byteFlip iv i b)) } pw =
        .error .authenticationFailed) := by
  have hsne : salt ≠ [] := by intro h; rw [h] at hs16; simp at hs16
  have hine : iv ≠ [] := by intro h; rw [h] at hi12; simp at hi12
  have hcb : allBytes (gcmEncrypt (deriveKey pw salt) iv (utf8Encode P)) :=
    gcmEncrypt_bytes _ _ _ hsb hib (utf8Encode_bytes P)
  have hcne : gcmEncrypt (deriveKey pw salt) iv (utf8Encode P) ≠ [] :=
    gcmEncrypt_ne_nil _ _ _
  refine ⟨?_, ?_, ?_, ?_⟩
  · intro pw2 hne
    unfold encryptText
    exact decrypt_mk_wrongpw salt iv P pw pw2 hsb hsne hib hine hne
  · intro i b hi hb
    have hfb : allBytes (byteFlip (gcmEncrypt (deriveKey pw salt) iv (utf8Encode P)) i b) :=
      byteFlip_bytes _ i b hcb hb
    have hfne : byteFlip (gcmEncrypt (deriveKey pw salt) iv (utf8Encode P)) i b ≠ [] := by
      intro h
      have hlen := congrArg List.length h
      rw [byteFlip_length, List.length_nil] at hlen
      omega
    show decryptText
        { v := some 1, salt := some (toBase64 salt), iv := some (toBase64 iv),
          data := some (toBase64
            (byteFlip (gcmEncrypt (deriveKey pw salt) iv (utf8Encode P)) i b)) } pw =
        .error .authenticationFailed
    rw [decryptText_mk_reduce salt iv _ pw (some 1) hsb hsne hib hine hfb hfne]
    have ht : gcmDecrypt (deriveKey pw salt) iv
        (byteFlip (gcmEncrypt (deriveKey pw salt) iv (utf8Encode P)) i b) = none := by
      unfold byteFlip
      exact gcm_tamper (deriveKey pw salt) (deriveKey pw salt) iv iv (utf8Encode P) i _ hi
        (xor_pow_ne _ b)
    rw [ht]
    rfl
  · intro i b hi hb
    have hs2b : allBytes (byteFlip salt i b) := byteFlip_bytes salt i b hsb hb
    have hs2ne : byteFlip salt i b ≠ [] := by
      intro h
      have hlen := congrArg List.length h
      rw [byteFlip_length, List.length_nil] at hlen
      omega
    show decryptText
        { v := some 1, salt := some (toBase64 (byteFlip salt i b)), iv := some (toBase64 iv),
          data := some (toBase64 (gcmEncrypt (deriveKey pw salt) iv (utf8Encode P))) } pw =
        .error .authenticationFailed
    rw [decryptText_mk_reduce (byteFlip salt i b) iv _ pw (some 1) hs2b hs2ne hib hine hcb hcne]
    rw [gcm_wrong (deriveKey pw salt) (deriveKey pw (byteFlip salt i b)) iv iv (utf8Encode P) (by
      intro hcond
      have hss : salt = byteFlip salt i b := hcond.2.1
      exact byteFlip_ne salt i b hi hss.symm)]
    rfl
  · intro i b hi hb
    have hi2b : allBytes (byteFlip iv i b) := byteFlip_bytes iv i b hib hb
    have hi2ne : byteFlip iv i b ≠ [] := by
      intro h
      have hlen := congrArg List.length h
      rw [byteFlip_length, List.length_nil] at hlen
      omega
    show decryptText
        { v := some 1, salt := some (toBase64 salt), iv := some (toBase64 (byteFlip iv i b)),
          data := some (toBase64 (gcmEncrypt (deriveKey pw salt) iv (utf8Encode P))) } pw =
        .error .authenticationFailed
    rw [decryptText_mk_reduce salt (byteFlip iv i b) _ pw (some 1) hsb hsne hi2b hi2ne hcb hcne]
    rw [gcm_wrong (deriveKey pw salt) (deriveKey pw salt) iv (byteFlip iv i b) (utf8Encode P) (by
      intro hcond
      have hiv : iv = byteFlip iv i b := hcond.2.2
      exact byteFlip_ne iv i b hi hiv.symm)]
    rfl

/-- Witness for C2: a wrong passphrase and one bit flip in each stored
field, at a concrete input. -/
theorem decryptText_auth_and_tamper_witness :
    ("x" ≠ "p" ∧ 0 < (gcmEncrypt (deriveKey "p" demoSalt) demoIv (utf8Encode "k")).length ∧
      (0 : Nat) < 8 ∧ 0 < demoSalt.length ∧ 0 < demoIv.length) ∧
    decryptText (encryptText demoSalt demoIv "k" "p") "x" = .error .authenticationFailed ∧
    decryptText
      { encryptText demoSalt demoIv "k" "p" with
        data := some (toBase64
          (byteFlip (gcmEncrypt (deriveKey "p" demoSalt) demoIv (utf8Encode "k")) 0 0)) } "p" =
      .error .authenticationFailed ∧
    decryptText
      { encryptText demoSalt demoIv "k" "p" with
        salt := some (toBase64 (byteFlip demoSalt 0 0)) } "p" =
      .error .authenticationFailed ∧
    decryptText
      { encryptText demoSalt demoIv "k" "p" with
        iv := some (toBase64 (byteFlip demoIv 0 0)) } "p" =
      .error .authenticationFailed :=
  ⟨⟨by decide, by decide, by decide, by decide, by decide⟩,
    (decryptText_auth_and_tamper demoSalt demoIv "k" "p"
      (by decide) (by decide) (by decide) (by decide)).1 "x" (by decide),
    (decryptText_auth_and_tamper demoSalt demoIv "k" "p"
      (by decide) (by decide) (by decide) (by decide)).2.1 0 0 (by decide) (by decide),
    (decryptText_auth_and_tamper demoSalt demoIv "k" "p"
      (by decide) (by decide) (by decide) (by decide)).2.2.1 0 0 (by decide) (by decide),
    (decryptText_auth_and_tamper demoSalt demoIv "k" "p"
      (by decide) (by decide) (by decide) (by decide)).2.2.2 0 0 (by decide) (by decide)⟩

/-- C7: `decryptText` validates the payload: it fails with
`InvalidPayload` on the payload `{v: 1, salt: "", iv: "", data: ""}`
for every passphrase, fails with `InvalidPayload` whenever a field is
absent or empty, fails with `InvalidPayload` whenever a present field
is not valid base64, and does not raise `InvalidPayload` on a payload
whose three fields are present, non-empty and valid base64. -/
theorem decryptText_validates_payload (p : Payload) (pw : String) :
    (decryptText { v := some 1, salt := some "", iv := some "", data := some "" } pw =
      .error .invalidPayload) ∧
    (¬(truthy p.salt = true ∧ truthy p.iv = true ∧ truthy p.data = true) →
      decryptText p pw = .error .invalidPayload) ∧
    ((fromBase64 (p.salt.getD "")).isSome = false ∨ (fromBase64 (p.iv.getD "")).isSome = false ∨
        (fromBase64 (p.data.getD "")).isSome = false →
      decryptText p pw = .error .invalidPayload) ∧
    (truthy p.salt = true ∧ truthy p.iv = true ∧ truthy p.data = true ∧
        (fromBase64 (p.salt.getD "")).isSome = true ∧
        (fromBase64 (p.iv.getD "")).isSome = true ∧
        (fromBase64 (p.data.getD "")).isSome = true →
      decryptText p pw ≠ .error .invalidPayload) := by
  refine ⟨rfl, ?_, ?_, ?_⟩
  · intro hmiss
    unfold decryptText
    rw [if_neg]
    intro hcond
    rw [Bool.and_eq_true, Bool.and_eq_true] at hcond
    exact hmiss ⟨hcond.1.1, hcond.1.2, hcond.2⟩
  · intro hdis
    by_cases htr : truthy p.salt = true ∧ truthy p.iv = true ∧ truthy p.data = true
    · unfold decryptText
      rw [htr.1, htr.2.1, htr.2.2]
      simp only [Bool.and_self]
      rw [if_pos trivial]
      rcases hs : fromBase64 (p.salt.getD "") with _ | sa
      · rfl
      · rcases hi2 : fromBase64 (p.iv.getD "") with _ | ia
        · simp only [Option.some_bind, Option.none_bind]
          rfl
        · rcases hd : fromBase64 (p.data.getD "") with _ | da
          · simp only [Option.some_bind, Option.map_none']
            rfl
          · exfalso
            rcases hdis with h | h | h
            · rw [hs] at h; simp at h
            · rw [hi2] at h; simp at h
            · rw [hd] at h; simp at h
    · unfold decryptText
      rw [if_neg]
      intro hcond
      rw [Bool.and_eq_true, Bool.and_eq_true] at hcond
      exact htr ⟨hcond.1.1, hcond.1.2, hcond.2⟩
  · intro hall
    obtain ⟨h1, h2, h3, h4, h5, h6⟩ := hall
    obtain ⟨sa, hs⟩ := Option.isSome_iff_exists.mp h4
    obtain ⟨ia, hi2⟩ := Option.isSome_iff_exists.mp h5
    obtain ⟨da, hd⟩ := Option.isSome_iff_exists.mp h6
    unfold decryptText
    rw [h1, h2, h3]
    simp only [Bool.and_self]
    rw [if_pos trivial]
    rw [hs, hi2, hd]
    simp only [Option.some_bind, Option.map_some', Option.elim_some]
    rcases hg : gcmDecrypt (deriveKey pw sa) ia da with _ | m
    · simp [hg]
    · simp [hg]

/-- Witness for C7: a payload with an absent salt field is rejected as
invalid. -/
theorem decryptText_validates_payload_witness :
    decryptText { v := some 1, salt := none, iv := some "AA==", data := some "AA==" } "pw" =
      .error .invalidPayload :=
  (decryptText_validates_payload
    { v := some 1, salt := none, iv := some "AA==", data := some "AA==" } "pw").2.1 (by decide)


/-- Shared helper: the mount effect, when the persistence flag is on
and an encrypted payload is stored, loads the payload and resets
`apiKey` and `isApiUnlocked`. -/
theorem loadEffect_apiKey_fields (ls : LocalStorage) (s : HomeState) (p : Payload)
    (hpersist : shouldPersist ls = true) (henc : ls.apiKeyEnc = some p) :
    (loadEffect ls s).encryptedApiKey = some p ∧ (loadEffect ls s).apiKey = "" ∧
    (loadEffect ls s).isApiUnlocked = false := by
  unfold loadEffect
  rw [hpersist, if_neg (by simp), henc]
  exact ⟨rfl, rfl, rfl⟩

/-- Shared helper: the unlock handler with a non-empty passphrase and a
held payload acts according to the decryption result. -/
theorem unlockSavedKey_result (ls : LocalStorage) (s : HomeState) (p : Payload)
    (r : Except CryptoError String)
    (hne : s.passphrase.isEmpty = false) (hp : s.encryptedApiKey = some p)
    (hd : decryptText p s.passphrase = r) :
    unlockSavedKey ls s = unlockResult r ls s := by
  unfold unlockSavedKey
  rw [hne, if_neg (by simp), hp]
  simp only [Option.elim_some]
  rw [hd]

/-- C4 (code bug): with the persistence flag off, toggling off deletes
both persisted artifacts and a file upload writes nothing, but the
`Encrypt and Save Key` handler still writes the encrypted key to
storage — the write is not gated on the flag, contradicting the
toggle's own label (`Enable local persistence (resume and API key)`)
and the gated upload path. -/
theorem encryptSaveKey_writes_despite_persist_off :
    (persistToggle false
      { persistence := some "1",
        lastResume := some { name := "r.tex", content := "x", savedAt := 5 },
        apiKeyEnc := some (encryptText demoSalt demoIv "AIza-key" "pw") }
      initialHomeState).1 =
      { persistence := some "0", lastResume := none, apiKeyEnc := none } ∧
    (handleFileUpload "r.tex" "content" 7
      { persistence := some "0", lastResume := none, apiKeyEnc := none }
      { initialHomeState with persistEnabled := false }).1 =
      { persistence := some "0", lastResume := none, apiKeyEnc := none } ∧
    ({ initialHomeState with
        persistEnabled := false
        apiKey := "AIza-key"
        passphrase := "pw" } : HomeState).persistEnabled = false ∧
    (encryptSaveKey demoSalt demoIv
      { persistence := some "0", lastResume := none, apiKeyEnc := none }
      { initialHomeState with
        persistEnabled := false
        apiKey := "AIza-key"
        passphrase := "pw" }).1.apiKeyEnc =
      some (encryptText demoSalt demoIv "AIza-key" "pw") :=
  ⟨rfl, rfl, rfl, rfl⟩

/-- C3 (counterexample to the claim as stated): when the persistence
flag stored is `"0"` while an encrypted payload exists in storage (a
state the ungated encrypt-and-save write makes reachable), the load
effect returns early and does not restore the `EncryptedLocked` state:
no payload is held in memory after the load. -/
theorem loadEffect_persistOff_counterexample :
    (({ persistence := some "0", lastResume := none,
        apiKeyEnc := some (encryptText demoSalt demoIv "AIza-example-key-123"
          "correct horse") } : LocalStorage).apiKeyEnc).isSome = true ∧
    (loadEffect
      { persistence := some "0", lastResume := none,
        apiKeyEnc := some (encryptText demoSalt demoIv "AIza-example-key-123"
          "correct horse") }
      initialHomeState).encryptedApiKey = none :=
  ⟨rfl, rfl⟩

/-- C3 (amended): after a page load from a storage state whose
persistence flag is enabled (unset or `"1"`) and which holds a
persisted encrypted payload, the controller is in the
`EncryptedLocked` state (payload held, `apiKey` empty, `isApiUnlocked`
false) regardless of prior session state; from there, unlocking with
the (necessarily non-empty) passphrase used at encryption sets `apiKey`
to the original plaintext and `isApiUnlocked` to true, while unlocking
with any other passphrase surfaces an alert and leaves storage, the
held payload, `apiKey` and `isApiUnlocked` unchanged. -/
theorem keyLifecycle_reload_lock_unlock (ls : LocalStorage) (salt iv : List Nat)
    (P pw pw2 : String)
    (hsb : allBytes salt) (hs16 : salt.length = 16) (hib : allBytes iv) (hi12 : iv.length = 12)
    (hpw : pw ≠ "") (hpw2 : pw2 ≠ pw)
    (hpersist : shouldPersist ls = true)
    (henc : ls.apiKeyEnc = some (encryptText salt iv P pw)) :
    (loadEffect ls initialHomeState).encryptedApiKey = some (encryptText salt iv P pw) ∧
    (loadEffect ls initialHomeState).apiKey = "" ∧
    (loadEffect ls initialHomeState).isApiUnlocked = false ∧
    (unlockSavedKey ls
      { loadEffect ls initialHomeState with passphrase := pw }).2.1.apiKey = P ∧
    (unlockSavedKey ls
      { loadEffect ls initialHomeState with passphrase := pw }).2.1.isApiUnlocked = true ∧
    (unlockSavedKey ls
      { loadEffect ls initialHomeState with passphrase := pw2 }).1 = ls ∧
    (unlockSavedKey ls
      { loadEffect ls initialHomeState with passphrase := pw2 }).2.1 =
      { loadEffect ls initialHomeState with passphrase := pw2 } ∧
    (unlockSavedKey ls
      { loadEffect ls initialHomeState with passphrase := pw2 }).2.2.isSome = true := by
  have hsne : salt ≠ [] := by intro h; rw [h] at hs16; simp at hs16
  have hine : iv ≠ [] := by intro h; rw [h] at hi12; simp at hi12
  have hl := loadEffect_apiKey_fields ls initialHomeState _ hpersist henc
  have hdec : decryptText (encryptText salt iv P pw) pw = .ok P := by
    unfold encryptText
    exact decrypt_mk_ok salt iv P pw hsb hsne hib hine
  have hdec2 : decryptText (encryptText salt iv P pw) pw2 = .error .authenticationFailed := by
    unfold encryptText
    exact decrypt_mk_wrongpw salt iv P pw pw2 hsb hsne hib hine hpw2
  set s0 := loadEffect ls initialHomeState with hs0
  refine ⟨hl.1, hl.2.1, hl.2.2, ?_, ?_, ?_, ?_, ?_⟩
  · rw [unlockSavedKey_result ls { s0 with passphrase := pw }
      (encryptText salt iv P pw) (.ok P)
      (show ({ s0 with passphrase := pw }).passphrase.isEmpty = false
        from isEmpty_false_of_ne pw hpw)
      (show ({ s0 with passphrase := pw }).encryptedApiKey =
        some (encryptText salt iv P pw) from hl.1)
      (show decryptText (encryptText salt iv P pw)
        ({ s0 with passphrase := pw }).passphrase = .ok P
        from hdec)]
    rfl
  · rw [unlockSavedKey_result ls { s0 with passphrase := pw }
      (encryptText salt iv P pw) (.ok P)
      (show ({ s0 with passphrase := pw }).passphrase.isEmpty = false
        from isEmpty_false_of_ne pw hpw)
      (show ({ s0 with passphrase := pw }).encryptedApiKey =
        some (encryptText salt iv P pw) from hl.1)
      (show decryptText (encryptText salt iv P pw)
        ({ s0 with passphrase := pw }).passphrase = .ok P
        from hdec)]
    rfl
  · by_cases hpw2e : pw2 = ""
    · subst hpw2e
      rfl
    · rw [unlockSavedKey_result ls { s0 with passphrase := pw2 }
        (encryptText salt iv P pw) (.error .authenticationFailed)
        (show ({ s0 with passphrase := pw2 }).passphrase.isEmpty = false
          from isEmpty_false_of_ne pw2 hpw2e)
        (show ({ s0 with passphrase := pw2 }).encryptedApiKey =
          some (encryptText salt iv P pw) from hl.1)
        (show decryptText (encryptText salt iv P pw)
          ({ s0 with passphrase := pw2 }).passphrase =
          .error .authenticationFailed from hdec2)]
      rfl
  · by_cases hpw2e : pw2 = ""
    · subst hpw2e
      rfl
    · rw [unlockSavedKey_result ls { s0 with passphrase := pw2 }
        (encryptText salt iv P pw) (.error .authenticationFailed)
        (show ({ s0 with passphrase := pw2 }).passphrase.isEmpty = false
          from isEmpty_false_of_ne pw2 hpw2e)
        (show ({ s0 with passphrase := pw2 }).encryptedApiKey =
          some (encryptText salt iv P pw) from hl.1)
        (show decryptText (encryptText salt iv P pw)
          ({ s0 with passphrase := pw2 }).passphrase =
          .error .authenticationFailed from hdec2)]
      rfl
  · by_cases hpw2e : pw2 = ""
    · subst hpw2e
      rfl
    · rw [unlockSavedKey_result ls { s0 with passphrase := pw2 }
        (encryptText salt iv P pw) (.error .authenticationFailed)
        (show ({ s0 with passphrase := pw2 }).passphrase.isEmpty = false
          from isEmpty_false_of_ne pw2 hpw2e)
        (show ({ s0 with passphrase := pw2 }).encryptedApiKey =
          some (encryptText salt iv P pw) from hl.1)
        (show decryptText (encryptText salt iv P pw)
          ({ s0 with passphrase := pw2 }).passphrase =
          .error .authenticationFailed from hdec2)]
      rfl

/-- Witness for C3's amended statement: the spec scenario, with
passphrase `correct horse` and wrong passphrase `wrong`. -/
theorem keyLifecycle_reload_lock_unlock_witness :
    (allBytes demoSalt ∧ demoSalt.length = 16 ∧ allBytes demoIv ∧ demoIv.length = 12 ∧
      "correct horse" ≠ "" ∧ "wrong" ≠ "correct horse" ∧
      shouldPersist
        { persistence := some "1", lastResume := none,
          apiKeyEnc := some (encryptText demoSalt demoIv "AIza-example-key-123"
            "correct horse") } = true) ∧
    ((loadEffect
      { persistence := some "1", lastResume := none,
        apiKeyEnc := some (encryptText demoSalt demoIv "AIza-example-key-123"
          "correct horse") } initialHomeState).encryptedApiKey =
      some (encryptText demoSalt demoIv "AIza-example-key-123" "correct horse") ∧
     (loadEffect
      { persistence := some "1", lastResume := none,
        apiKeyEnc := some (encryptText demoSalt demoIv "AIza-example-key-123"
          "correct horse") } initialHomeState).apiKey = "" ∧
     (loadEffect
      { persistence := some "1", lastResume := none,
        apiKeyEnc := some (encryptText demoSalt demoIv "AIza-example-key-123"
          "correct horse") } initialHomeState).isApiUnlocked = false ∧
     (unlockSavedKey
      { persistence := some "1", lastResume := none,
        apiKeyEnc := some (encryptText demoSalt demoIv "AIza-example-key-123"
          "correct horse") }
      { loadEffect
        { persistence := some "1", lastResume := none,
          apiKeyEnc := some (encryptText demoSalt demoIv "AIza-example-key-123"
            "correct horse") } initialHomeState with
        passphrase := "correct horse" }).2.1.apiKey = "AIza-example-key-123" ∧
     (unlockSavedKey
      { persistence := some "1", lastResume := none,
        apiKeyEnc := some (encryptText demoSalt demoIv "AIza-example-key-123"
          "correct horse") }
      { loadEffect
        { persistence := some "1", lastResume := none,
          apiKeyEnc := some (encryptText demoSalt demoIv "AIza-example-key-123"
            "correct horse") } initialHomeState with
        passphrase := "correct horse" }).2.1.isApiUnlocked = true ∧
     (unlockSavedKey
      { persistence := some "1", lastResume := none,
        apiKeyEnc := some (encryptText demoSalt demoIv "AIza-example-key-123"
          "correct horse") }
      { loadEffect
        { persistence := some "1", lastResume := none,
          apiKeyEnc := some (encryptText demoSalt demoIv "AIza-example-key-123"
            "correct horse") } initialHomeState with
        passphrase := "wrong" }).1 =
      { persistence := some "1", lastResume := none,
        apiKeyEnc := some (encryptText demoSalt demoIv "AIza-example-key-123"
          "correct horse") } ∧
     (unlockSavedKey
      { persistence := some "1", lastResume := none,
        apiKeyEnc := some (encryptText demoSalt demoIv "AIza-example-key-123"
          "correct horse") }
      { loadEffect
        { persistence := some "1", lastResume := none,
          apiKeyEnc := some (encryptText demoSalt demoIv "AIza-example-key-123"
            "correct horse") } initialHomeState with
        passphrase := "wrong" }).2.1 =
      { loadEffect
        { persistence := some "1", lastResume := none,
          apiKeyEnc := some (encryptText demoSalt demoIv "AIza-example-key-123"
            "correct horse") } initialHomeState with
        passphrase := "wrong" } ∧
     (unlockSavedKey
      { persistence := some "1", lastResume := none,
        apiKeyEnc := some (encryptText demoSalt demoIv "AIza-example-key-123"
          "correct horse") }
      { loadEffect
        { persistence := some "1", lastResume := none,
          apiKeyEnc := some (encryptText demoSalt demoIv "AIza-example-key-123"
            "correct horse") } initialHomeState with
        passphrase := "wrong" }).2.2.isSome = true) :=
  ⟨⟨by decide, by decide, by decide, by decide, by decide, by decide, rfl⟩,
    keyLifecycle_reload_lock_unlock
      { persistence := some "1", lastResume := none,
        apiKeyEnc := some (encryptText demoSalt demoIv "AIza-example-key-123"
          "correct horse") }
      demoSalt demoIv "AIza-example-key-123" "correct horse" "wrong"
      (by decide) (by decide) (by decide) (by decide) (by decide) (by decide) rfl rfl⟩

end ResumeWizard
